import Mathlib

/-!
Shallow embedding of the NasriyaData MongoDB adapter
(`src/adapter.ts`, `src/client.ts`, `src/assets/filter.ts`,
`src/assets/query.ts`, `src/utils/helpers.ts`), together with theorems
about its access evaluator, schema validator, item normalizer, hook
pipeline, failure reporter, CRUD operations and query filter handling.
-/

namespace NasriyaMongo

/-- JavaScript runtime values, as used by the adapter. Dates carry an
optional integer timestamp; `none` models an Invalid Date (`NaN` time
value), which `new Date(string)` produces for unparseable strings
instead of throwing. -/
inductive JSVal where
  | vUndefined
  | vNull
  | vBool (b : Bool)
  | vNum (n : Int)
  | vStr (s : String)
  | vDate (t : Option Int)
  | vArr (xs : List JSVal)
  | vObj (fields : List (String × JSVal))
deriving Repr

mutual

/-- Structural equality of JS values (the equality semantics the
document store applies to criteria values). -/
def jsvalBeq : JSVal → JSVal → Bool
  | .vUndefined, .vUndefined => true
  | .vNull, .vNull => true
  | .vBool a, .vBool b => a == b
  | .vNum a, .vNum b => a == b
  | .vStr a, .vStr b => a == b
  | .vDate a, .vDate b => a == b
  | .vArr xs, .vArr ys => jsvalListBeq xs ys
  | .vObj xs, .vObj ys => jsvalFieldsBeq xs ys
  | _, _ => false

/-- Elementwise equality of JS value lists. -/
def jsvalListBeq : List JSVal → List JSVal → Bool
  | [], [] => true
  | a :: as, b :: bs => jsvalBeq a b && jsvalListBeq as bs
  | _, _ => false

/-- Elementwise equality of JS object field lists. -/
def jsvalFieldsBeq : List (String × JSVal) → List (String × JSVal) → Bool
  | [], [] => true
  | (k1, v1) :: as, (k2, v2) :: bs => k1 == k2 && jsvalBeq v1 v2 && jsvalFieldsBeq as bs
  | _, _ => false

end

instance : BEq JSVal := ⟨jsvalBeq⟩

/-- A JS object as an insertion-ordered association list (the shape of
items handled by the client). -/
abbrev Item := List (String × JSVal)

namespace Item

/-- JS `key in obj`. -/
def hasKey (item : Item) (k : String) : Bool :=
  item.any (fun p => p.1 == k)

/-- JS `obj[key]` (`none` when the key is absent). -/
def get (item : Item) (k : String) : Option JSVal :=
  (item.find? (fun p => p.1 == k)).map (fun p => p.2)

/-- JS `obj[key] = v`: replaces the value in place when the key exists
(JS object keys are unique, so replacing the first occurrence is the JS
semantics), otherwise appends the key (JS property insertion order). -/
def set (item : Item) (k : String) (v : JSVal) : Item :=
  match item with
  | [] => [(k, v)]
  | p :: rest => if p.1 == k then (k, v) :: rest else p :: set rest k v

/-- JS `delete obj[key]`. -/
def del (item : Item) (k : String) : Item :=
  item.filter (fun p => p.1 != k)

end Item

/-- `helpers.isRealObject` from `src/utils/helpers.ts`: a plain object —
not null, array, Date, RegExp or Error. -/
def isRealObject : JSVal → Bool
  | .vObj _ => true
  | _ => false

/-- JS `typeof` as a string, for error messages and type checks. -/
def jsTypeof : JSVal → String
  | .vUndefined => "undefined"
  | .vNull => "object"
  | .vBool _ => "boolean"
  | .vNum _ => "number"
  | .vStr _ => "string"
  | .vDate _ => "object"
  | .vArr _ => "object"
  | .vObj _ => "object"

/-- Render the `Option String` user id the way a JS template literal
renders it (`undefined` prints as the string "undefined"). -/
def showOptStr : Option String → String
  | some s => s
  | none => "undefined"

/-- A possibly-undefined string id as a JS value (used for
`context.userId` inside criteria objects). -/
def jsOfOptStr : Option String → JSVal
  | some s => .vStr s
  | none => .vUndefined

/-! ## Client configuration and the access evaluator -/

/-- The per-client user record (`#_config.user` in `client.ts`).
Permissions, roles and authorization modes are kept as the literal
strings the source compares against. -/
structure ClientUser where
  id : Option String
  loggedIn : Bool
  role : String
deriving Repr, DecidableEq

/-- The client configuration relevant to authorization
(`#_config.authorization` is the string "User" or "System"). -/
structure ClientConfig where
  authorization : String
  user : ClientUser
deriving Repr, DecidableEq

/-- `#_utils.authUser` (`client.ts` lines 72–94, identically repeated in
`query.ts` lines 52–74): maps an optionally-declared permission string to
an access verdict string. The source's final `return 'Denied'` is the
fall-through reached when no earlier branch returned — including the case
`permission === 'Admin'` with `user.role === 'Admin'`. -/
def authUser (authorization : String) (user : ClientUser) (permission : Option String) : String :=
  match permission with
  | none => "Allowed"
  | some p =>
    if authorization = "User" then
      if p = "Anyone" then "Allowed"
      else if user.loggedIn = false then "Denied"
      else if p = "Admin" ∧ user.role ≠ "Admin" then "Denied"
      else if p = "MemberAuthor" then "Owned-Items"
      else if p = "Member" then "Allowed"
      else "Denied"
    else "Allowed"

/-- Per-collection declared permissions (`CollectionPermissions` in
`docs.ts`: all four access types are present when the object is). -/
structure CollectionPermissions where
  read : String
  write : String
  modify : String
  delete : String
deriving Repr, DecidableEq

/-- `collection.permissions?.[accessType] || 'Allowed'` from
`prepareEvent` (`client.ts` line 106): when the collection declares no
permissions object the *string* "Allowed" is used as the permission. -/
def accessPermission (perms : Option CollectionPermissions) (accessType : String) : String :=
  match perms with
  | none => "Allowed"
  | some p =>
    if accessType = "read" then p.read
    else if accessType = "write" then p.write
    else if accessType = "modify" then p.modify
    else p.delete

/-! ## Errors, hooks, collection definitions -/

/-- The context object passed to every hook
(`{ collectionName, userId, userRole }`). -/
structure HookContext where
  collectionName : String
  userId : Option String
  userRole : String
deriving Repr, DecidableEq

/-- Thrown values: plain strings, the `TypeError`/`RangeError`/
`SyntaxError` classes, and the structured record
`{ type, context, error }` thrown by the failure reporter. -/
inductive JSError where
  | str (msg : String)
  | typeErr (msg : String)
  | rangeErr (msg : String)
  | syntaxErr (msg : String)
  | failureRecord (type : String) (context : HookContext) (error : JSError)
deriving Repr, DecidableEq

/-- A user hook receiving an item payload; it may throw, and may return a
value of any shape (shape is validated by the event runner). Awaiting of
promises is collapsed into the returned value. -/
abbrev ItemHook := Item → HookContext → Except JSError JSVal

/-- A user hook receiving an item-id payload. -/
abbrev IdHook := String → HookContext → Except JSError JSVal

/-- The `onFailure` hook, receiving the operation error and context. -/
abbrev FailureHook := JSError → HookContext → Except JSError JSVal

/-- The per-collection hook registry (`CollectionDefinition.hooks`). -/
structure Hooks where
  beforeGetItem : Option IdHook := none
  afterGetItem : Option ItemHook := none
  beforeInsert : Option ItemHook := none
  afterInsert : Option ItemHook := none
  beforeRemove : Option IdHook := none
  afterRemove : Option IdHook := none
  beforeUpdate : Option ItemHook := none
  afterUpdate : Option IdHook := none
  onFailure : Option FailureHook := none

/-- A custom validity rule: the handler is an arbitrary JS function; the
validator only accepts a literal `true` result. -/
structure Validity where
  handler : JSVal → JSVal
  message : String

/-- A custom schema field (`CustomSchema` in `docs.ts`). `required` and
`default` are `Option`s because the source tests *key presence*
(`'required' in propSchema`, `'default' in propSchema`), not the value. -/
structure CustomSchema where
  type : String
  required : Option Bool := none
  default : Option JSVal := none
  validity : Option Validity := none

/-- A schema entry: a plain type tag or a custom schema field. -/
inductive SchemaProp where
  | plain (t : String)
  | custom (c : CustomSchema)

/-- A collection schema: ordered field declarations (JS object key
order, iterated by `for..in`). -/
abbrev Schema := List (String × SchemaProp)

/-- `helpers.isSchemaType`: the six primitive tags plus `Any`. -/
def isSchemaType (t : String) : Bool :=
  ["String", "Number", "Object", "Array", "Date", "Boolean", "Any"].contains t

/-- One registered collection (`CollectionDefinition`). -/
structure CollectionDefinition where
  name : String
  schema : Option Schema := none
  permissions : Option CollectionPermissions := none
  hooks : Hooks := {}

/-- Operation options (`NasriyaDataOptions`): both flags may be absent. -/
structure NasriyaDataOptions where
  suppressAuth : Option Bool := none
  suppressHooks : Option Bool := none
deriving Repr, DecidableEq

/-- The access-denied message thrown by `prepareEvent`
(`client.ts` line 108). -/
def accessDeniedMsg (userId : Option String) (accessType : String) (collectionName : String) : String :=
  "Access Denied: The current user (" ++ showOptStr userId ++ ") does not have "
    ++ accessType.toUpper ++ " permissions on the " ++ collectionName ++ " collection"

/-- `#_utils.prepareEvent` (`client.ts` lines 99–110): looks the
collection up in the selected database's registered collections, resolves
the declared permission for the access type, evaluates it (unless
`suppressAuth` is exactly `true`) and throws on a `Denied` verdict. The
database itself is assumed registered (the selected database's collection
list is the `collections` parameter). -/
def prepareEvent (cfg : ClientConfig) (collections : List CollectionDefinition)
    (collectionName : String) (accessType : String) (options : NasriyaDataOptions) :
    Except JSError (String × CollectionDefinition) :=
  match collections.find? (fun c => c.name == collectionName) with
  | none => .error (.str ("The collection " ++ collectionName ++ " does not exist on the selected database"))
  | some collection =>
    let permission := accessPermission collection.permissions accessType
    let auth := if options.suppressAuth ≠ some true then
        authUser cfg.authorization cfg.user (some permission)
      else "Allowed"
    if auth = "Denied" then
      .error (.str (accessDeniedMsg cfg.user.id accessType collection.name))
    else .ok (auth, collection)

/-! ## Schema validator (`#_utils.validateItemSchema`) -/

/-- The type-mismatch message thrown by `checkType`. -/
def typeMismatchMsg (property schemaType : String) (value : JSVal) : String :=
  "The " ++ property ++ " type is defined in the collection's schema as '"
    ++ schemaType ++ "', but instead got " ++ jsTypeof value

/-- The missing-required-property message (`client.ts` line 227). -/
def requiredMissingMsg (property : String) : String :=
  "The " ++ property ++ " property is required but is missing on the provided object"

/-- `checkType` (`client.ts` lines 157–207): the switch over the declared
schema type; `Any` always passes; the default case rejects unknown tags. -/
def checkType (property : String) (schemaType : String) (value : JSVal) : Except JSError Unit :=
  if schemaType = "Array" then
    match value with
    | .vArr _ => .ok ()
    | _ => .error (.str (typeMismatchMsg property schemaType value))
  else if schemaType = "Boolean" then
    match value with
    | .vBool _ => .ok ()
    | _ => .error (.str (typeMismatchMsg property schemaType value))
  else if schemaType = "Date" then
    match value with
    | .vDate _ => .ok ()
    | _ => .error (.str (typeMismatchMsg property schemaType value))
  else if schemaType = "Number" then
    match value with
    | .vNum _ => .ok ()
    | _ => .error (.str (typeMismatchMsg property schemaType value))
  else if schemaType = "String" then
    match value with
    | .vStr _ => .ok ()
    | _ => .error (.str (typeMismatchMsg property schemaType value))
  else if schemaType = "Object" then
    if isRealObject value then .ok ()
    else .error (.str (typeMismatchMsg property schemaType value))
  else if schemaType = "Any" then .ok ()
  else .error (.str ("'" ++ schemaType ++ "' is not a valid database schema type"))

/-- One pass of the `for (const property in schema)` loop body of
`validateItemSchema` (`client.ts` lines 210–243). When the item lacks a
custom field, the `required`/`default` logic runs only when the
`operation` argument is exactly the string `'Insert'`; for `'Update'` or
an omitted operation nothing happens. The required rule fires on key
*presence* (`'required' in propSchema`). -/
def validateSchemaProp (operation : Option String) (item : Item) (property : String)
    (propSchema : SchemaProp) : Except JSError Item :=
  match propSchema with
  | .custom c =>
    if isSchemaType c.type then
      -- helpers.isCustomSchema is true
      if item.hasKey property then
        match c.validity with
        | some v =>
          if v.handler ((item.get property).getD .vUndefined) == .vBool true then .ok item
          else .error (.str v.message)
        | none => do
          checkType property c.type ((item.get property).getD .vUndefined)
          pure item
      else
        if operation = some "Insert" then
          if c.required.isSome then
            match c.default with
            | some d => .ok (item.set property d)
            | none => .error (.str (requiredMissingMsg property))
          else
            match c.default with
            | some d => .ok (item.set property d)
            | none => .ok item
        else .ok item
    else
      -- helpers.isCustomSchema is false (invalid `type` tag): the value
      -- falls to the plain branch, where checkType reaches its default
      -- case when the field is present
      if item.hasKey property then do
        checkType property c.type ((item.get property).getD .vUndefined)
        pure item
      else .ok item
  | .plain t =>
    if item.hasKey property then do
      checkType property t ((item.get property).getD .vUndefined)
      pure item
    else .ok item

/-- `#_utils.validateItemSchema` (`client.ts` lines 150–247). The item is
an object by construction in this embedding (the source's
`isRealObject(item)` guard). With no schema the item passes through. -/
def validateItemSchema (item : Item) (schema : Option Schema) (operation : Option String) :
    Except JSError Item :=
  match schema with
  | none => .ok item
  | some s => s.foldlM (fun it p => validateSchemaProp operation it p.1 p.2) item

/-! ## Item normalizer (`#_helpers.validateInsertItem` / `validateUpdateItem`) -/

/-- JS `<` between two Dates compares numeric time values; with an
Invalid Date (NaN) on either side the comparison is false. -/
def dateLt : Option Int → Option Int → Bool
  | some a, some b => a < b
  | _, _ => false

/-- The `_id` block of `validateInsertItem` (`client.ts` lines 252–257):
an existing `_id` must be a non-empty string; otherwise a fresh id
(`uuidx.v4()`, passed in as `genId`) is assigned. -/
def normalizeId (genId : String) (item : Item) : Except JSError Item :=
  match item.get "_id" with
  | some (.vStr s) =>
    if s.length = 0 then .error (.rangeErr "The provided item _id cannot be an empty string")
    else .ok item
  | some v => .error (.typeErr ("The item ID is expected to be a string, instead got " ++ jsTypeof v))
  | none => .ok (item.set "_id" (.vStr genId))

/-- The `_createdDate` block (`client.ts` lines 260–276). `new
Date(string)` never throws — an unparseable string yields an Invalid Date
(`parse s = none`), so the source's catch branch is unreachable. A
non-string, non-Date value is a `TypeError`; an absent field defaults to
the current time. -/
def normalizeCreatedDate (parse : String → Option Int) (now : Int) (item : Item) :
    Except JSError Item :=
  match item.get "_createdDate" with
  | some (.vStr s) => .ok (item.set "_createdDate" (.vDate (parse s)))
  | some (.vDate t) => .ok (item.set "_createdDate" (.vDate t))
  | some v => .error (.typeErr ("The items's \"_createdDate\" is invalid. Expected a Date instance or a date ISO but got " ++ jsTypeof v))
  | none => .ok (item.set "_createdDate" (.vDate (some now)))

/-- The time value of an item's `_createdDate` field, which is always a
Date after the `_createdDate` normalization block; any other shape reads
as NaN. -/
def createdDateTs (item : Item) : Option Int :=
  match item.get "_createdDate" with
  | some (.vDate t) => t
  | _ => none

/-- The ordering check and assignment at the end of the `_updatedDate`
block (`client.ts` lines 292–296). -/
def updatedDateCheck (item : Item) (date : Option Int) : Except JSError Item :=
  if dateLt date (createdDateTs item) then
    .error (.str "The inserted items's \"_updatedDate\" is cannot be before the \"_createdDate\" of the document")
  else .ok (item.set "_updatedDate" (.vDate date))

/-- The `_updatedDate` block (`client.ts` lines 278–299): accepts a Date
or a string (parsed without throwing), rejects other shapes, fails when
the parsed date is earlier than `_createdDate`, and defaults to
`_createdDate` when absent. -/
def normalizeUpdatedDate (parse : String → Option Int) (item : Item) : Except JSError Item :=
  match item.get "_updatedDate" with
  | some (.vStr s) => updatedDateCheck item (parse s)
  | some (.vDate t) => updatedDateCheck item t
  | some v => .error (.typeErr ("The items's \"_updatedDate\" is invalid. Expected a Date instance or a date ISO but got " ++ jsTypeof v))
  | none => .ok (item.set "_updatedDate" ((item.get "_createdDate").getD .vUndefined))

/-- The `_owner` block (`client.ts` lines 301–311): `System` clients
force `_owner` to the string "system"; `User` clients require a supplied
`_owner` to be a non-empty string different (case-insensitively) from
"system", and default it to the caller id otherwise. -/
def normalizeOwner (authorization : String) (userId : Option String) (item : Item) :
    Except JSError Item :=
  if authorization = "System" then .ok (item.set "_owner" (.vStr "system"))
  else
    match item.get "_owner" with
    | some (.vStr s) =>
      if s.length = 0 then .error (.rangeErr "The \"_owner\" value cannot be an empty string")
      else if s.toLower = "system" then .error (.rangeErr "The \"_owner\" value cannot be set to the value \"System\".")
      else .ok item
    | some v => .error (.typeErr ("The \"_owner\" value should be a string, but instead got " ++ jsTypeof v))
    | none => .ok (item.set "_owner" (jsOfOptStr userId))

/-- `#_helpers.validateInsertItem` (`client.ts` lines 251–314): the four
sequential normalization blocks. The source mutates the item in place and
returns it; here each block returns the updated item. -/
def validateInsertItem (parse : String → Option Int) (now : Int) (authorization : String)
    (userId : Option String) (genId : String) (item : Item) : Except JSError Item := do
  let it1 ← normalizeId genId item
  let it2 ← normalizeCreatedDate parse now it1
  let it3 ← normalizeUpdatedDate parse it2
  normalizeOwner authorization userId it3

/-- `#_helpers.validateUpdateItem` (`client.ts` lines 315–329): requires
a non-empty string `_id`, strips `_createdDate` and `_owner`, and stamps
`_updatedDate` with the current time. -/
def validateUpdateItem (now : Int) (item : Item) : Except JSError Item :=
  match item.get "_id" with
  | some (.vStr s) =>
    if s.length = 0 then .error (.rangeErr "The provided item _id cannot be an empty string")
    else .ok (((item.del "_createdDate").del "_owner").set "_updatedDate" (.vDate (some now)))
  | some v => .error (.typeErr ("The item ID is expected to be a string, instead got " ++ jsTypeof v))
  | none => .error (.syntaxErr "An item in the update list is missing its \"_id\" field. All items must include the \"_id\" property")

/-! ## Hook pipeline (`#_events`) -/

/-- Generic id-payload event runner: the shape shared by
`beforeGetItem`, `beforeRemove`, `afterRemove` and `afterUpdate`
(`client.ts`): unless hooks are suppressed, invoke the hook and adopt its
result only when it is a string; otherwise keep the original id. A hook
throw propagates. -/
def runIdEvent (hook : Option IdHook) (itemId : String) (context : HookContext)
    (options : NasriyaDataOptions) : Except JSError String :=
  if options.suppressHooks ≠ some true then
    match hook with
    | some h => do
      let res ← h itemId context
      match res with
      | .vStr s => pure s
      | _ => pure itemId
    | none => pure itemId
  else pure itemId

/-- Generic item-payload "after" event runner: the shape shared by
`afterGetItem` and `afterInsert`: adopt the hook result only when it is a
real object. -/
def runAfterItemEvent (hook : Option ItemHook) (item : Item) (context : HookContext)
    (options : NasriyaDataOptions) : Except JSError Item :=
  if options.suppressHooks ≠ some true then
    match hook with
    | some h => do
      let res ← h item context
      match res with
      | .vObj fields => pure fields
      | _ => pure item
    | none => pure item
  else pure item

/-- `#_events.beforeInsert` (`client.ts` lines 553–572): always runs the
insert normalizer on the item (the source mutates it in place), then —
unless hooks are suppressed — invokes the hook on the normalized item; an
object result is re-run through the insert normalizer (with a fresh
generated id, `genId2`), any other result is ignored. -/
def eventBeforeInsert (parse : String → Option Int) (now : Int) (authorization : String)
    (hook : Option ItemHook) (item : Item) (context : HookContext)
    (options : NasriyaDataOptions) (genId genId2 : String) : Except JSError Item := do
  let validated ← validateInsertItem parse now authorization context.userId genId item
  if options.suppressHooks ≠ some true then
    match hook with
    | some h => do
      let res ← h validated context
      match res with
      | .vObj fields => validateInsertItem parse now authorization context.userId genId2 fields
      | _ => pure validated
    | none => pure validated
  else pure validated

/-- `#_events.beforeUpdate` (`client.ts` lines 657–676): always runs the
update normalizer on the item (in place in the source), then — unless
hooks are suppressed — invokes the hook on the normalized item; an object
result is re-run through the update normalizer, any other result is
ignored. -/
def eventBeforeUpdate (now : Int) (hook : Option ItemHook) (item : Item)
    (context : HookContext) (options : NasriyaDataOptions) : Except JSError Item := do
  let validated ← validateUpdateItem now item
  if options.suppressHooks ≠ some true then
    match hook with
    | some h => do
      let res ← h validated context
      match res with
      | .vObj fields => validateUpdateItem now fields
      | _ => pure validated
    | none => pure validated
  else pure validated

/-- The console warning emitted when a user `onFailure` hook throws
(`client.ts` line 729). -/
def onFailureWarnMsg (collectionName : String) : String :=
  "An error has been thrown in your onFailure data hook for the " ++ collectionName
    ++ " collection. Do not use the onFailure hook to throw errors. An error is already thrown"

/-- `#_events.onFailure` (`client.ts` lines 717–735): builds the
structured record, invokes the collection's `onFailure` hook unless hooks
are suppressed — catching and only logging a hook throw — and throws the
record. Returns the thrown record together with the warnings logged. -/
def onFailure (hook : Option FailureHook) (options : Option NasriyaDataOptions)
    (dataOperation : String) (context : HookContext) (error : JSError) :
    JSError × List String :=
  let record := JSError.failureRecord (dataOperation ++ "_error") context error
  let warnings :=
    if (options.bind (fun o => o.suppressHooks)) ≠ some true then
      match hook with
      | some h =>
        match h error context with
        | .ok _ => []
        | .error _ => [onFailureWarnMsg context.collectionName]
      | none => []
    else []
  (record, warnings)

/-! ## Storage capability (the narrow MongoDB interface consumed) -/

/-- A MongoDB criteria object matches a document when every criteria
entry equals the document's value for that key. -/
def matchesCriteria (doc criteria : Item) : Bool :=
  criteria.all (fun p => doc.get p.1 == some p.2)

/-- `findOne(criteria)`. -/
def findOneBy (storage : List Item) (criteria : Item) : Option Item :=
  storage.find? (fun d => matchesCriteria d criteria)

/-- `deleteOne(criteria)`: removes the first matching document. -/
def deleteOneBy (storage : List Item) (criteria : Item) : List Item :=
  match storage with
  | [] => []
  | d :: rest =>
    if matchesCriteria d criteria then rest
    else d :: deleteOneBy rest criteria

/-- Apply a `$set` payload to a document. -/
def applySet (doc payload : Item) : Item :=
  payload.foldl (fun d p => d.set p.1 p.2) doc

/-- `updateOne(criteria, { $set: payload })`: updates the first matching
document. -/
def updateOneBy (storage : List Item) (criteria payload : Item) : List Item :=
  match storage with
  | [] => []
  | d :: rest =>
    if matchesCriteria d criteria then applySet d payload :: rest
    else d :: updateOneBy rest criteria payload

/-! ## CRUD orchestrator operations -/

/-- The criteria expression shared verbatim by `getItem` (line 797),
`remove` (line 923) and `update` (line 1002):
`{ _id: id, ...(permission === 'Owned-Items' ? { _owner: userId } : {}) }`. -/
def criteriaFor (idVal : JSVal) (permission : String) (userId : Option String) : Item :=
  [("_id", idVal)] ++ (if permission = "Owned-Items" then [("_owner", jsOfOptStr userId)] else [])

/-- The rejection message of `checkCollectionValidity` when the named
collection is not physically present. -/
def collectionMissingMsg (collectionName : String) : String :=
  "The (" ++ collectionName ++ ") does not exist on your database."

/-- Route an in-`try` error through the failure reporter and keep the
record it throws (`this.#_events.onFailure(...)`). -/
def reportFailure (hook : Option FailureHook) (options : NasriyaDataOptions)
    (dataOperation : String) (context : HookContext) (e : JSError) : JSError :=
  (onFailure hook (some options) dataOperation context e).1

/-- `NasriyaDataClient.getItem` (`client.ts` lines 786–815). `storage` is
the target collection's documents; `collectionExists` is the result of
the `listCollections` probe run by `checkArgs` before the string checks.
Returns the item or `none`, or the thrown error. -/
def getItem (cfg : ClientConfig) (collections : List CollectionDefinition)
    (collectionExists : Bool) (storage : List Item) (collectionName itemId : String)
    (options : NasriyaDataOptions) : Except JSError (Option Item) :=
  if collectionExists = false then .error (.str (collectionMissingMsg collectionName))
  else if itemId.length = 0 then .error (.rangeErr "The itemId cannot be an empty string")
  else
    match prepareEvent cfg collections collectionName "read" options with
    | .error e => .error e
    | .ok (permission, collection) =>
      let context : HookContext := ⟨collection.name, cfg.user.id, cfg.user.role⟩
      let body : Except JSError (Option Item) := do
        let newItemId ← runIdEvent collection.hooks.beforeGetItem itemId context options
        let criteria := criteriaFor (.vStr newItemId) permission context.userId
        match findOneBy storage criteria with
        | none => pure none
        | some it => do
          let newItem ← runAfterItemEvent collection.hooks.afterGetItem it context options
          pure (some newItem)
      match body with
      | .ok r => .ok r
      | .error e => .error (reportFailure collection.hooks.onFailure options "getItem" context e)

/-- `NasriyaDataClient.insert` (`client.ts` lines 824–852). Note line
834: the schema validator is invoked as
`validateItemSchema(beforeItem, collection.schema)` — with *no*
`operation` argument — so its `Insert`-only required/default branch is
never taken on this path. Returns the operation result together with the
collection contents after the call. -/
def insert (parse : String → Option Int) (now : Int) (genId genId2 : String)
    (cfg : ClientConfig) (collections : List CollectionDefinition)
    (collectionExists : Bool) (storage : List Item) (collectionName : String)
    (item : Item) (options : NasriyaDataOptions) :
    Except JSError Item × List Item :=
  if collectionExists = false then (.error (.str (collectionMissingMsg collectionName)), storage)
  else
    match prepareEvent cfg collections collectionName "write" options with
    | .error e => (.error e, storage)
    | .ok (_permission, collection) =>
      let context : HookContext := ⟨collection.name, cfg.user.id, cfg.user.role⟩
      match eventBeforeInsert parse now cfg.authorization collection.hooks.beforeInsert
          item context options genId genId2 with
      | .error e => (.error (reportFailure collection.hooks.onFailure options "insert" context e), storage)
      | .ok beforeItem =>
        match validateItemSchema beforeItem collection.schema none with
        | .error e => (.error (reportFailure collection.hooks.onFailure options "insert" context e), storage)
        | .ok finalItem =>
          -- insertOne(finalItem), then findOne({ _id: result.insertedId })
          let storage2 := storage ++ [finalItem]
          let insertedItem := (findOneBy storage2 [("_id", (finalItem.get "_id").getD .vUndefined)]).getD []
          match runAfterItemEvent collection.hooks.afterInsert insertedItem context options with
          | .error e => (.error (reportFailure collection.hooks.onFailure options "insert" context e), storage2)
          | .ok newItem => (.ok newItem, storage2)

/-- `NasriyaDataClient.remove` (`client.ts` lines 912–943). Note line
930: the hook handed to the "After" event runner is
`collection.hooks?.beforeRemove`, not `afterRemove`. -/
def remove (cfg : ClientConfig) (collections : List CollectionDefinition)
    (collectionExists : Bool) (storage : List Item) (collectionName itemId : String)
    (options : NasriyaDataOptions) : Except JSError String × List Item :=
  if collectionExists = false then (.error (.str (collectionMissingMsg collectionName)), storage)
  else if itemId.length = 0 then (.error (.rangeErr "The itemId cannot be an empty string"), storage)
  else
    match prepareEvent cfg collections collectionName "delete" options with
    | .error e => (.error e, storage)
    | .ok (permission, collection) =>
      let context : HookContext := ⟨collection.name, cfg.user.id, cfg.user.role⟩
      match runIdEvent collection.hooks.beforeRemove itemId context options with
      | .error e => (.error (reportFailure collection.hooks.onFailure options "remove" context e), storage)
      | .ok beforeItemId =>
        let criteria := criteriaFor (.vStr beforeItemId) permission context.userId
        let storage2 := deleteOneBy storage criteria
        -- deleteOne acknowledged; then the "After" event, with the
        -- beforeRemove hook as in the source
        match runIdEvent collection.hooks.beforeRemove beforeItemId context options with
        | .error e => (.error (reportFailure collection.hooks.onFailure options "remove" context e), storage2)
        | .ok afterItemId => (.ok afterItemId, storage2)

/-- The original `item` argument of `update` as it stands after
`#_events.beforeUpdate` ran `validateUpdateItem(eventArgs.item)` on it
*in place* (line 658): re-running the pure normalizer reproduces the
mutated object (identical whenever the event succeeded). -/
def mutatedUpdateArg (now : Int) (item : Item) : Item :=
  match validateUpdateItem now item with
  | .ok m => m
  | .error _ => item

/-- Read a string `_id` out of a lookup result (used where the source
treats `finalItem._id` as a string). -/
def strOfId : Option JSVal → String
  | some (.vStr s) => s
  | _ => ""

/-- `NasriyaDataClient.update` (`client.ts` lines 990–1022). Note line
1003: the `$set` payload is the original `item` argument (as mutated in
place by the update normalizer), **not** `finalItem` — the validated
output of the beforeUpdate hook is used only for the criteria `_id` and
the after-hook id. -/
def update (now : Int) (cfg : ClientConfig) (collections : List CollectionDefinition)
    (collectionExists : Bool) (storage : List Item) (collectionName : String)
    (item : Item) (options : NasriyaDataOptions) :
    Except JSError String × List Item :=
  if collectionExists = false then (.error (.str (collectionMissingMsg collectionName)), storage)
  else
    match prepareEvent cfg collections collectionName "modify" options with
    | .error e => (.error e, storage)
    | .ok (permission, collection) =>
      let context : HookContext := ⟨collection.name, cfg.user.id, cfg.user.role⟩
      match eventBeforeUpdate now collection.hooks.beforeUpdate item context options with
      | .error e => (.error (reportFailure collection.hooks.onFailure options "update" context e), storage)
      | .ok beforeItem =>
        match validateItemSchema beforeItem collection.schema (some "Update") with
        | .error e => (.error (reportFailure collection.hooks.onFailure options "update" context e), storage)
        | .ok finalItem =>
          let criteria := criteriaFor ((finalItem.get "_id").getD .vUndefined) permission context.userId
          let storage2 := updateOneBy storage criteria (mutatedUpdateArg now item)
          match runIdEvent collection.hooks.afterUpdate (strOfId (finalItem.get "_id")) context options with
          | .error e => (.error (reportFailure collection.hooks.onFailure options "update" context e), storage2)
          | .ok afterItemId => (.ok afterItemId, storage2)

/-! ## Filter builder (`DataFilter`, `filter.ts`)

A `DataFilter` accumulates predicates in its private `#_queryObject`, and
its `_filter` getter returns that object *by reference*. To model the
reference semantics, filter objects live in an explicit heap and a
`DataFilter` instance is an index into it. -/

/-- A compiled predicate stored under one property key: a direct value,
a regular expression, or an object of `$`-operators. -/
inductive FilterExpr where
  | plain (v : JSVal)
  | regex (pattern flags : String)
  | cmp (entries : List (String × JSVal))
  | neRegex (pattern flags : String)
deriving Repr, BEq

/-- A query-filter object: insertion-ordered property → predicate. -/
abbrev FilterObj := List (String × FilterExpr)

/-- JS property assignment `obj[k] = v` on a filter object (keys are
unique in a JS object, so replacing the first occurrence is the JS
semantics). -/
def objSet (o : FilterObj) (k : String) (v : FilterExpr) : FilterObj :=
  match o with
  | [] => [(k, v)]
  | p :: rest => if p.1 == k then (k, v) :: rest else p :: objSet rest k v

/-- Lookup in a filter object. -/
def objGet (o : FilterObj) (k : String) : Option FilterExpr :=
  (o.find? (fun p => p.1 == k)).map (fun p => p.2)

/-- The store of live `DataFilter` query objects; a `DataFilter`
instance is an index into it. -/
abbrev FilterHeap := List FilterObj

/-- Dereference a `DataFilter` (its `_filter` getter). -/
def heapGet (h : FilterHeap) (r : Nat) : FilterObj := h.getD r []

/-- Write back a builder's mutated query object. -/
def heapSet (h : FilterHeap) (r : Nat) (o : FilterObj) : FilterHeap := h.set r o

/-- `#_utils.checkProperty` (`filter.ts` lines 10–13). -/
def checkProperty (prop : String) : Except JSError Unit :=
  if prop.length = 0 then
    .error (.str "Missing or invalid property passed to the data refiner. The property cannot be an empty string")
  else .ok ()

/-- The characters escaped by `eq`/`ne` before building a
case-insensitive pattern (`/[.*+?^$\x7b\x7d()|[\]\\]/g`). -/
def regexSpecialChars : List Char :=
  ['.', '*', '+', '?', '^', '$', '\x7b', '\x7d', '(', ')', '|', '[', ']', '\\']

/-- `value.replace(/[.*+?^$\x7b\x7d()|[\]\\]/g, '\\$&')`. -/
def escapeRegex (s : String) : String :=
  String.mk (s.toList.foldr
    (fun c acc => if regexSpecialChars.contains c then '\\' :: c :: acc else c :: acc) [])

/-- `DataFilter.eq` (`filter.ts` lines 162–184): validates the property
and the `caseSensitive` option (string values only), then writes either a
case-insensitive anchored regex or a `{ $eq: value }` entry into the
builder's query object. -/
def DataFilter.eq (heap : FilterHeap) (self : Nat) (property : String) (value : JSVal)
    (options : Option JSVal) : Except JSError FilterHeap := do
  checkProperty property
  let valueIsString : Bool := match value with | .vStr _ => true | _ => false
  match options with
  | none => pure ()
  | some o =>
    if isRealObject o = false then
      throw (.typeErr ("The provided options object is invalid. Expected an object but instead got " ++ jsTypeof o))
    else
      match o with
      | .vObj fields =>
        if Item.hasKey fields "caseSensitive" then
          if valueIsString = false then
            throw (.syntaxErr "The \"caseSensitive\" option is only valid for string values.")
          else
            match Item.get fields "caseSensitive" with
            | some (.vBool _) => pure ()
            | some v => throw (.typeErr ("The \"caseSensitive\" option is invalid. Expected a boolean but instead got " ++ jsTypeof v))
            | none => throw (.typeErr "The \"caseSensitive\" option is invalid. Expected a boolean but instead got undefined")
        else pure ()
      | _ => pure ()
  let caseSensitive : Bool :=
    match options with
    | some (.vObj fields) =>
      match Item.get fields "caseSensitive" with
      | some (.vBool b) => b
      | _ => true
    | _ => true
  match value with
  | .vStr s =>
    if caseSensitive = false then
      pure (heapSet heap self (objSet (heapGet heap self) property
        (.regex ("^" ++ escapeRegex s ++ "$") "i")))
    else
      pure (heapSet heap self (objSet (heapGet heap self) property (.cmp [("$eq", value)])))
  | _ => pure (heapSet heap self (objSet (heapGet heap self) property (.cmp [("$eq", value)])))

/-! ## Query executor (`DataQuery`, `query.ts`) -/

/-- The accumulating `#_config` of a `DataQuery`. The source initializes
`filter` to `null`; `filterRef` is the stored *reference* to a
`DataFilter`'s query object. -/
structure QueryConfig where
  filterRef : Option Nat := none
  sort : List (String × Int) := []
  projection : List (String × Int) := []
  skip : Nat := 0
  limit : Nat := 100

/-- `DataQuery.filter` (`query.ts` lines 112–116): stores
`filter._filter` — the reference to the builder's query object, with no
copy — in the query's config. -/
def DataQuery.filter (cfg : QueryConfig) (f : Nat) : QueryConfig :=
  { cfg with filterRef := some f }

/-- `DataQuery`'s own `#_utils.prepareEvent` (`query.ts` lines 39–47):
checks the collection physically exists, evaluates the declared `read`
permission (absent permissions evaluate as undefined → Allowed) unless
`suppressAuth` is exactly true, and throws on `Denied`. -/
def DataQuery.prepareEvent (authorization : String) (user : ClientUser)
    (collection : CollectionDefinition) (collectionExists : Bool)
    (options : Option NasriyaDataOptions) : Except JSError String :=
  if collectionExists = false then .error (.str (collectionMissingMsg collection.name))
  else
    let readAccess := collection.permissions.map (fun p => p.read)
    let permission :=
      if (options.bind (fun o => o.suppressAuth)) ≠ some true then
        authUser authorization user readAccess
      else "Allowed"
    if permission = "Denied" then
      .error (.str (accessDeniedMsg user.id "read" collection.name))
    else .ok permission

/-- The filter the executor reads at execution time
(`this.#_config.filter`, defaulted to `\x7b\x7d` when never set —
`query.ts` line 222): the *current* heap content of the stored
reference. -/
def DataQuery.baseFilter (heap : FilterHeap) (cfg : QueryConfig) : FilterObj :=
  match cfg.filterRef with
  | none => []
  | some r => heapGet heap r

/-- The spread `\x7b _owner: context.userId, ...filter \x7d`
(`query.ts` lines 224 and 264): `_owner` is written first, then the
caller filter's entries — so a caller entry with the key `_owner`
*overwrites* the injected value. -/
def spreadOwnerFirst (userId : Option String) (f : FilterObj) : FilterObj :=
  f.foldl (fun acc p => objSet acc p.1 p.2) [("_owner", .plain (jsOfOptStr userId))]

/-- The filter `DataQuery.find` hands to `collection.find` and
`collection.countDocuments` (`query.ts` lines 218–236; `count` at line
264 computes the same expression). -/
def DataQuery.findSentFilter (heap : FilterHeap) (authorization : String) (user : ClientUser)
    (collection : CollectionDefinition) (collectionExists : Bool) (cfg : QueryConfig)
    (options : Option NasriyaDataOptions) : Except JSError FilterObj := do
  let base := DataQuery.baseFilter heap cfg
  let permission ← DataQuery.prepareEvent authorization user collection collectionExists options
  pure (if (options.bind (fun o => o.suppressAuth)) = some true then base
    else if permission = "Owned-Items" then spreadOwnerFirst user.id base
    else base)

/-! ## Lemmas about object field access -/

theorem Item.get_cons (p : String × JSVal) (rest : Item) (k : String) :
    Item.get (p :: rest) k = if p.1 == k then some p.2 else Item.get rest k := by
  cases h : p.1 == k <;> simp [Item.get, List.find?, h]

theorem Item.get_set_self (item : Item) (k : String) (v : JSVal) :
    (Item.set item k v).get k = some v := by
  induction item with
  | nil => simp [Item.set, Item.get, List.find?]
  | cons p rest ih =>
    by_cases h : p.1 = k
    · simp [Item.set, h, Item.get_cons]
    · simp [Item.set, h, Item.get_cons, ih]

theorem Item.get_set_ne (item : Item) (k k' : String) (v : JSVal) (h : k ≠ k') :
    (Item.set item k v).get k' = item.get k' := by
  induction item with
  | nil => simp [Item.set, Item.get, List.find?, (show (k == k') = false by simp [h])]
  | cons p rest ih =>
    by_cases hp : p.1 = k
    · simp [Item.set, hp, Item.get_cons, h, Ne.symm h]
    · by_cases hq : p.1 = k'
      · simp [Item.set, hp, hq, Item.get_cons, h, Ne.symm h]
      · simp [Item.set, hp, hq, Item.get_cons, ih]

theorem objGet_cons (p : String × FilterExpr) (rest : FilterObj) (k : String) :
    objGet (p :: rest) k = if p.1 == k then some p.2 else objGet rest k := by
  cases h : p.1 == k <;> simp [objGet, List.find?, h]

theorem objGet_objSet_self (o : FilterObj) (k : String) (v : FilterExpr) :
    objGet (objSet o k v) k = some v := by
  induction o with
  | nil => simp [objSet, objGet, List.find?]
  | cons p rest ih =>
    by_cases h : p.1 = k
    · simp [objSet, h, objGet_cons]
    · simp [objSet, h, objGet_cons, ih]

theorem objGet_objSet_ne (o : FilterObj) (k k' : String) (v : FilterExpr) (h : k ≠ k') :
    objGet (objSet o k v) k' = objGet o k' := by
  induction o with
  | nil => simp [objSet, objGet, List.find?, (show (k == k') = false by simp [h])]
  | cons p rest ih =>
    by_cases hp : p.1 = k
    · simp [objSet, hp, objGet_cons, h, Ne.symm h]
    · by_cases hq : p.1 = k'
      · simp [objSet, hp, hq, objGet_cons, h, Ne.symm h]
      · simp [objSet, hp, hq, objGet_cons, ih]

theorem objGet_foldl_objSet_of_not_mem (f : FilterObj) (acc : FilterObj) (k : String)
    (h : ∀ p ∈ f, p.1 ≠ k) :
    objGet (f.foldl (fun a p => objSet a p.1 p.2) acc) k = objGet acc k := by
  induction f generalizing acc with
  | nil => rfl
  | cons p rest ih =>
    simp only [List.foldl_cons]
    rw [ih _ (fun q hq => h q (List.mem_cons_of_mem _ hq))]
    exact objGet_objSet_ne _ _ _ _ (h p (List.mem_cons_self _ _))

theorem objGet_eq_none_iff (f : FilterObj) (k : String) :
    objGet f k = none ↔ ∀ p ∈ f, p.1 ≠ k := by
  induction f with
  | nil => simp [objGet, List.find?]
  | cons p rest ih =>
    by_cases h : p.1 = k
    · simp [objGet_cons, h]
    · simp [objGet_cons, h, ih]

theorem objGet_foldl_objSet_of_mem (f : FilterObj) (acc : FilterObj) (k : String)
    (e : FilterExpr) (hnd : (f.map Prod.fst).Nodup) (h : objGet f k = some e) :
    objGet (f.foldl (fun a p => objSet a p.1 p.2) acc) k = some e := by
  induction f generalizing acc with
  | nil => simp [objGet, List.find?] at h
  | cons p rest ih =>
    simp only [List.map_cons, List.nodup_cons] at hnd
    by_cases hk : p.1 = k
    · have hrest : ∀ q ∈ rest, q.1 ≠ k := by
        intro q hq hqk
        apply hnd.1
        have hm : q.1 ∈ List.map Prod.fst rest := List.mem_map_of_mem Prod.fst hq
        rw [hk, ← hqk]
        exact hm
      rw [objGet_cons, if_pos (by simpa using hk)] at h
      simp only [List.foldl_cons]
      rw [objGet_foldl_objSet_of_not_mem rest _ k hrest]
      rw [hk, objGet_objSet_self]
      exact h
    · rw [objGet_cons, if_neg (by simpa using hk)] at h
      simp only [List.foldl_cons]
      exact ih _ hnd.2 h

/-! ## Lemmas about the item normalizer stages -/

theorem normalizeId_ok_frame (genId : String) (item it1 : Item)
    (h : normalizeId genId item = .ok it1) (k : String) (hk : k ≠ "_id") :
    it1.get k = item.get k := by
  unfold normalizeId at h
  split at h
  · split at h
    · cases h
    · injection h with h
      rw [← h]
  · cases h
  · injection h with h
    rw [← h, Item.get_set_ne _ _ _ _ (Ne.symm hk)]

theorem normalizeOwner_ok_frame (authorization : String) (userId : Option String)
    (item it4 : Item) (h : normalizeOwner authorization userId item = .ok it4)
    (k : String) (hk : k ≠ "_owner") : it4.get k = item.get k := by
  unfold normalizeOwner at h
  split at h
  · injection h with h
    rw [← h, Item.get_set_ne _ _ _ _ (Ne.symm hk)]
  · split at h
    · split at h
      · cases h
      · split at h
        · cases h
        · injection h with h
          rw [← h]
    · cases h
    · injection h with h
      rw [← h, Item.get_set_ne _ _ _ _ (Ne.symm hk)]

theorem normalizeCreatedDate_ok_shape (parse : String → Option Int) (now : Int)
    (item it2 : Item) (h : normalizeCreatedDate parse now item = .ok it2) :
    (∃ s, item.get "_createdDate" = some (.vStr s)
        ∧ it2 = item.set "_createdDate" (.vDate (parse s)))
    ∨ (∃ t, item.get "_createdDate" = some (.vDate t)
        ∧ it2 = item.set "_createdDate" (.vDate t))
    ∨ (item.get "_createdDate" = none
        ∧ it2 = item.set "_createdDate" (.vDate (some now))) := by
  unfold normalizeCreatedDate at h
  split at h
  · injection h with h
    exact Or.inl ⟨_, by assumption, h.symm⟩
  · injection h with h
    exact Or.inr (Or.inl ⟨_, by assumption, h.symm⟩)
  · cases h
  · injection h with h
    exact Or.inr (Or.inr ⟨by assumption, h.symm⟩)

theorem normalizeUpdatedDate_ok_shape (parse : String → Option Int) (item it3 : Item)
    (h : normalizeUpdatedDate parse item = .ok it3) :
    (∃ d, ((∃ s, item.get "_updatedDate" = some (.vStr s) ∧ parse s = d)
            ∨ item.get "_updatedDate" = some (.vDate d))
        ∧ dateLt d (createdDateTs item) = false
        ∧ it3 = item.set "_updatedDate" (.vDate d))
    ∨ (item.get "_updatedDate" = none
        ∧ it3 = item.set "_updatedDate" ((item.get "_createdDate").getD .vUndefined)) := by
  unfold normalizeUpdatedDate updatedDateCheck at h
  split at h
  · split at h
    · cases h
    · injection h with h
      refine Or.inl ⟨_, Or.inl ⟨_, by assumption, rfl⟩, by simpa using (by assumption : ¬ _ = true), h.symm⟩
  · split at h
    · cases h
    · injection h with h
      refine Or.inl ⟨_, Or.inr (by assumption), by simpa using (by assumption : ¬ _ = true), h.symm⟩
  · cases h
  · injection h with h
    exact Or.inr ⟨by assumption, h.symm⟩


/-! ## The insert normalizer's date-ordering invariant -/

/-- A JS value that is a valid Date or parseable ISO-string
representation of timestamp `t`. -/
def reprDate (parse : String → Option Int) (v : JSVal) (t : Int) : Prop :=
  v = .vDate (some t) ∨ ∃ s, v = .vStr s ∧ parse s = some t

theorem Except.bind_ok_iff {ε α β : Type} (x : Except ε α) (f : α → Except ε β) (r : β) :
    (x >>= f) = .ok r ↔ ∃ a, x = .ok a ∧ f a = .ok r := by
  cases x <;> simp [Bind.bind, Except.bind]

theorem validateInsertItem_ok_chain (parse : String → Option Int) (now : Int)
    (authorization : String) (userId : Option String) (genId : String) (item res : Item)
    (h : validateInsertItem parse now authorization userId genId item = .ok res) :
    ∃ it1 it2 it3, normalizeId genId item = .ok it1
      ∧ normalizeCreatedDate parse now it1 = .ok it2
      ∧ normalizeUpdatedDate parse it2 = .ok it3
      ∧ normalizeOwner authorization userId it3 = .ok res := by
  unfold validateInsertItem at h
  rw [Except.bind_ok_iff] at h
  obtain ⟨it1, h1, h⟩ := h
  rw [Except.bind_ok_iff] at h
  obtain ⟨it2, h2, h⟩ := h
  rw [Except.bind_ok_iff] at h
  obtain ⟨it3, h3, h4⟩ := h
  exact ⟨it1, it2, it3, h1, h2, h3, h4⟩

theorem created_after_normalize (parse : String → Option Int) (now : Int)
    (it1 it2 : Item) (cv : JSVal) (c : Int)
    (h2 : normalizeCreatedDate parse now it1 = .ok it2)
    (hcv : it1.get "_createdDate" = some cv) (hrc : reprDate parse cv c) :
    it2 = it1.set "_createdDate" (.vDate (some c)) := by
  rcases normalizeCreatedDate_ok_shape _ _ _ _ h2 with ⟨s, hs, he⟩ | ⟨t, ht, he⟩ | ⟨hn, _⟩
  · rw [hcv] at hs
    injection hs with hs
    rcases hrc with hd | ⟨s', hs', hp⟩
    · rw [hd] at hs; cases hs
    · rw [hs'] at hs
      injection hs with hs
      rw [he, ← hs, hp]
  · rw [hcv] at ht
    injection ht with ht
    rcases hrc with hd | ⟨s', hs', hp⟩
    · rw [hd] at ht
      injection ht with ht
      rw [he, ← ht]
    · rw [hs'] at ht; cases ht
  · rw [hcv] at hn; cases hn

theorem updated_after_normalize (parse : String → Option Int)
    (it2 it3 : Item) (uv : JSVal) (u : Int)
    (h3 : normalizeUpdatedDate parse it2 = .ok it3)
    (huv : it2.get "_updatedDate" = some uv) (hru : reprDate parse uv u) :
    dateLt (some u) (createdDateTs it2) = false
      ∧ it3 = it2.set "_updatedDate" (.vDate (some u)) := by
  rcases normalizeUpdatedDate_ok_shape _ _ _ h3 with ⟨d, hd, hlt, he⟩ | ⟨hn, _⟩
  · have hdu : d = some u := by
      rcases hd with ⟨s, hs, hp⟩ | hdd
      · rw [huv] at hs
        injection hs with hs
        rcases hru with hx | ⟨s', hs', hp'⟩
        · rw [hx] at hs; cases hs
        · rw [hs'] at hs
          injection hs with hs
          rw [← hp, ← hs, hp']
      · rw [huv] at hdd
        injection hdd with hdd
        rcases hru with hx | ⟨s', hs', hp'⟩
        · rw [hx] at hdd
          injection hdd with hdd
          rw [hdd]
        · rw [hs'] at hdd; cases hdd
    rw [hdu] at hlt he
    exact ⟨hlt, he⟩
  · rw [huv] at hn; cases hn

/-- C8: for the insert normalizer `validateInsertItem`: (a) when the
supplied `_createdDate` and `_updatedDate` are valid Date/ISO-string
representations of timestamps `c` and `u` with `u < c`, the call fails;
(b) every item the normalizer returns (when supplied date fields, if any,
are valid representations) carries Dates with
`_createdDate ≤ _updatedDate`, and `_updatedDate` equals `_createdDate`
whenever it was absent from the input. -/
theorem validateInsertItem_date_ordering
    (parse : String → Option Int) (now : Int) (authorization : String)
    (userId : Option String) (genId : String) (item : Item) :
    (∀ cv uv c u, item.get "_createdDate" = some cv → reprDate parse cv c →
        item.get "_updatedDate" = some uv → reprDate parse uv u → u < c →
        (validateInsertItem parse now authorization userId genId item).isOk = false)
    ∧
    (∀ res, validateInsertItem parse now authorization userId genId item = .ok res →
        (∀ cv, item.get "_createdDate" = some cv → ∃ c, reprDate parse cv c) →
        (∀ uv, item.get "_updatedDate" = some uv → ∃ u, reprDate parse uv u) →
        ∃ c u, res.get "_createdDate" = some (.vDate (some c))
          ∧ res.get "_updatedDate" = some (.vDate (some u))
          ∧ c ≤ u
          ∧ (item.get "_updatedDate" = none → u = c)) := by
  constructor
  · intro cv uv c u hcv hrc huv hru hlt
    cases hres : validateInsertItem parse now authorization userId genId item with
    | error e => rfl
    | ok res =>
      exfalso
      obtain ⟨it1, it2, it3, h1, h2, h3, h4⟩ := validateInsertItem_ok_chain _ _ _ _ _ _ _ hres
      have hc1 : it1.get "_createdDate" = some cv := by
        rw [normalizeId_ok_frame _ _ _ h1 _ (by decide)]; exact hcv
      have hu1 : it1.get "_updatedDate" = some uv := by
        rw [normalizeId_ok_frame _ _ _ h1 _ (by decide)]; exact huv
      have hit2 := created_after_normalize _ _ _ _ _ _ h2 hc1 hrc
      have hu2 : it2.get "_updatedDate" = some uv := by
        rw [hit2, Item.get_set_ne _ _ _ _ (by decide)]; exact hu1
      have hcts : createdDateTs it2 = some c := by
        unfold createdDateTs
        rw [hit2, Item.get_set_self]
      obtain ⟨hfalse, _⟩ := updated_after_normalize _ _ _ _ _ h3 hu2 hru
      rw [hcts] at hfalse
      simp [dateLt, hlt] at hfalse
  · intro res hok hcvalid huvalid
    obtain ⟨it1, it2, it3, h1, h2, h3, h4⟩ := validateInsertItem_ok_chain _ _ _ _ _ _ _ hok
    have hcframe : it1.get "_createdDate" = item.get "_createdDate" :=
      normalizeId_ok_frame _ _ _ h1 _ (by decide)
    have huframe : it1.get "_updatedDate" = item.get "_updatedDate" :=
      normalizeId_ok_frame _ _ _ h1 _ (by decide)
    have hcts : ∃ c, it2 = it1.set "_createdDate" (.vDate (some c)) := by
      cases hc : item.get "_createdDate" with
      | some cv =>
        obtain ⟨c, hrc⟩ := hcvalid cv hc
        exact ⟨c, created_after_normalize _ _ _ _ _ _ h2 (hcframe.trans hc) hrc⟩
      | none =>
        rcases normalizeCreatedDate_ok_shape _ _ _ _ h2 with ⟨s, hs, _⟩ | ⟨t, ht, _⟩ | ⟨_, he⟩
        · rw [hcframe, hc] at hs; cases hs
        · rw [hcframe, hc] at ht; cases ht
        · exact ⟨now, he⟩
    obtain ⟨c, hit2⟩ := hcts
    have hc2 : it2.get "_createdDate" = some (.vDate (some c)) := by
      rw [hit2, Item.get_set_self]
    have hcts2 : createdDateTs it2 = some c := by
      unfold createdDateTs; rw [hc2]
    have hu2 : it2.get "_updatedDate" = item.get "_updatedDate" := by
      rw [hit2, Item.get_set_ne _ _ _ _ (by decide)]; exact huframe
    have hu3 : ∃ u, it3 = it2.set "_updatedDate" (.vDate (some u)) ∧ c ≤ u
        ∧ (item.get "_updatedDate" = none → u = c) := by
      cases hu : item.get "_updatedDate" with
      | some uv =>
        obtain ⟨u, hru⟩ := huvalid uv hu
        obtain ⟨hfalse, he⟩ := updated_after_normalize _ _ _ _ _ h3 (hu2.trans hu) hru
        rw [hcts2] at hfalse
        refine ⟨u, he, ?_, fun hn => Option.noConfusion hn⟩
        simpa [dateLt, not_lt] using hfalse
      | none =>
        rcases normalizeUpdatedDate_ok_shape _ _ _ h3 with ⟨d, hd, _, _⟩ | ⟨hn, he⟩
        · rcases hd with ⟨s, hs, _⟩ | hdd
          · rw [hu2, hu] at hs; cases hs
          · rw [hu2, hu] at hdd; cases hdd
        · refine ⟨c, ?_, le_refl c, fun _ => rfl⟩
          rw [he, hc2]
          rfl
    obtain ⟨u, hit3, hcu, hdef⟩ := hu3
    have hc3 : it3.get "_createdDate" = some (.vDate (some c)) := by
      rw [hit3, Item.get_set_ne _ _ _ _ (by decide)]; exact hc2
    have hu3f : it3.get "_updatedDate" = some (.vDate (some u)) := by
      rw [hit3, Item.get_set_self]
    refine ⟨c, u, ?_, ?_, hcu, hdef⟩
    · rw [normalizeOwner_ok_frame _ _ _ _ h4 _ (by decide)]; exact hc3
    · rw [normalizeOwner_ok_frame _ _ _ _ h4 _ (by decide)]; exact hu3f

/-! ## Concrete fixtures used by the claim theorems -/

/-- The default operation options (`suppressAuth: false, suppressHooks:
false`). -/
def optsDefault : NasriyaDataOptions := { suppressAuth := some false, suppressHooks := some false }

/-- A `System`-authorization client. -/
def cfgSystem : ClientConfig := { authorization := "System", user := ⟨none, false, "Visitor"⟩ }

/-- A date parse under which no string is a valid date. -/
def parseNone : String → Option Int := fun _ => none

/-- A collection declaring `Admin` for all four access types. -/
def collAdminOnly : CollectionDefinition :=
  { name := "Secrets",
    permissions := some { read := "Admin", write := "Admin", modify := "Admin", delete := "Admin" } }

/-- A schema with one field that is `required: true` and has no default. -/
def schemaRequired : Schema := [("f", .custom { type := "String", required := some true })]

/-- The same schema with a `default` added. -/
def schemaRequiredDefault : Schema :=
  [("f", .custom { type := "String", required := some true, default := some (.vStr "fallback") })]

/-- A collection carrying `schemaRequired`. -/
def collRequired : CollectionDefinition := { name := "Members", schema := some schemaRequired }

/-- A collection carrying `schemaRequiredDefault`. -/
def collRequiredDefault : CollectionDefinition :=
  { name := "Members", schema := some schemaRequiredDefault }

/-- A beforeUpdate hook returning a well-shaped replacement object that
differs from the original item. -/
def hookBeforeUpdateC4 : ItemHook :=
  fun _ _ => .ok (.vObj [("_id", .vStr "x"), ("name", .vStr "fromHook")])

/-- A collection registering `hookBeforeUpdateC4`. -/
def collUpdateHooked : CollectionDefinition :=
  { name := "Members", hooks := { beforeUpdate := some hookBeforeUpdateC4 } }

/-- A beforeRemove hook appending "-b" to the id. -/
def hookBeforeRemoveC9 : IdHook := fun itemId _ => .ok (.vStr (itemId ++ "-b"))

/-- An afterRemove hook appending "-a" to the id. -/
def hookAfterRemoveC9 : IdHook := fun itemId _ => .ok (.vStr (itemId ++ "-a"))

/-- A collection registering distinct beforeRemove and afterRemove hooks. -/
def collRemoveHooked : CollectionDefinition :=
  { name := "Members",
    hooks := { beforeRemove := some hookBeforeRemoveC9, afterRemove := some hookAfterRemoveC9 } }

/-- The document `insert` produces from the empty item under a `System`
client at time 0 with generated id "id1". -/
def insertedDocC3 : Item :=
  [("_id", .vStr "id1"), ("_createdDate", .vDate (some 0)),
   ("_updatedDate", .vDate (some 0)), ("_owner", .vStr "system")]

/-- A collection whose `read` permission is `MemberAuthor`. -/
def collMemberAuthorRead : CollectionDefinition :=
  { name := "Members",
    permissions := some { read := "MemberAuthor", write := "Member",
                          modify := "MemberAuthor", delete := "MemberAuthor" } }

/-- A date parse mapping the string "d100" to timestamp 100. -/
def parseC8W : String → Option Int := fun s => if s = "d100" then some 100 else none

/-- An item whose `_updatedDate` (50) is earlier than its string-encoded
`_createdDate` (100). -/
def itemC8W : Item := [("_createdDate", .vStr "d100"), ("_updatedDate", .vDate (some 50))]

/-! ## Claim theorems -/

/-- C1 (counterexample): the claim that `query` injects the owner-scoped
predicate `_owner = callerId` for *every* caller filter fails: `find`
computes the spread `\x7b _owner: userId, ...filter \x7d`, so a caller
filter built with `eq('_owner', 'other')` overrides the injected value —
a logged-in Member querying a `MemberAuthor` collection sends
`_owner: \x7b $eq: "other" \x7d` to storage, not `_owner = "me"`. -/
theorem query_owner_filter_not_injected_cex :
    DataFilter.eq [[]] 0 "_owner" (.vStr "other") none
      = .ok [[("_owner", FilterExpr.cmp [("$eq", .vStr "other")])]]
    ∧ DataQuery.findSentFilter [[("_owner", FilterExpr.cmp [("$eq", .vStr "other")])]] "User"
        ⟨some "me", true, "Member"⟩ collMemberAuthorRead true (DataQuery.filter {} 0) none
      = .ok [("_owner", FilterExpr.cmp [("$eq", .vStr "other")])]
    ∧ objGet [("_owner", FilterExpr.cmp [("$eq", .vStr "other")])] "_owner"
        ≠ some (.plain (.vStr "me")) := by
  refine ⟨by rfl, by rfl, ?_⟩
  simp [objGet, List.find?]

/-- C1 (amended): for a `MemberAuthor` declaration and a logged-in
User-mode caller the evaluator yields `Owned-Items`; `getItem`, `remove`
and `update` then always set `_owner = callerId` in the criteria (their
shared `criteriaFor` expression), while `query` `find`/`count` prepend
`_owner = callerId` via object spread — the predicate is injected exactly
when the caller's filter does not itself bind `_owner`, and a caller
filter binding `_owner` overrides the injected value. -/
theorem ownership_scoping_amended
    (user : ClientUser) (uid : String) (hid : user.id = some uid) (hlog : user.loggedIn = true)
    (idVal : JSVal) (f : FilterObj) (hnd : (f.map Prod.fst).Nodup)
    (heap : FilterHeap) (cfg : QueryConfig)
    (collection : CollectionDefinition) (ps : CollectionPermissions)
    (hps : collection.permissions = some ps) (hread : ps.read = "MemberAuthor") :
    authUser "User" user (some "MemberAuthor") = "Owned-Items"
    ∧ Item.get (criteriaFor idVal "Owned-Items" (some uid)) "_owner" = some (.vStr uid)
    ∧ (objGet f "_owner" = none →
        objGet (spreadOwnerFirst (some uid) f) "_owner" = some (.plain (.vStr uid)))
    ∧ (∀ e, objGet f "_owner" = some e →
        objGet (spreadOwnerFirst (some uid) f) "_owner" = some e)
    ∧ DataQuery.findSentFilter heap "User" user collection true cfg none
        = .ok (spreadOwnerFirst (some uid) (DataQuery.baseFilter heap cfg)) := by
  have hverdict : authUser "User" user (some "MemberAuthor") = "Owned-Items" := by
    simp [authUser, hlog]
  refine ⟨hverdict, ?_, ?_, ?_, ?_⟩
  · simp [criteriaFor, Item.get_cons, jsOfOptStr]
  · intro hnone
    unfold spreadOwnerFirst
    rw [objGet_foldl_objSet_of_not_mem _ _ _ ((objGet_eq_none_iff f "_owner").mp hnone)]
    simp [objGet, List.find?, jsOfOptStr]
  · intro e he
    exact objGet_foldl_objSet_of_mem _ _ _ _ hnd he
  · have hprep : DataQuery.prepareEvent "User" user collection true none
        = .ok "Owned-Items" := by
      unfold DataQuery.prepareEvent
      simp [hps, hread, hverdict]
    unfold DataQuery.findSentFilter
    rw [hprep]
    simp [Bind.bind, Except.bind, Pure.pure, Except.pure, hid]

/-- C1 (witness): the amended theorem at concrete inputs — the criteria
of the id-based operations carries `_owner = "me"`, the query filter gets
`_owner = "me"` injected when the caller filter lacks `_owner`, and a
caller filter binding `_owner` survives unchanged. -/
theorem ownership_scoping_amended_witness :
    Item.get (criteriaFor (.vStr "item-1") "Owned-Items" (some "me")) "_owner"
      = some (.vStr "me")
    ∧ objGet (spreadOwnerFirst (some "me") [("age", FilterExpr.cmp [("$eq", .vNum 3)])]) "_owner"
      = some (.plain (.vStr "me"))
    ∧ objGet (spreadOwnerFirst (some "me")
        [("_owner", FilterExpr.cmp [("$eq", .vStr "other")])]) "_owner"
      = some (FilterExpr.cmp [("$eq", .vStr "other")]) := by
  refine ⟨?_, ?_, ?_⟩
  · exact (ownership_scoping_amended ⟨some "me", true, "Member"⟩ "me" rfl rfl (.vStr "item-1")
      [("age", .cmp [("$eq", .vNum 3)])] (by simp) [] {} collMemberAuthorRead
      { read := "MemberAuthor", write := "Member", modify := "MemberAuthor", delete := "MemberAuthor" }
      rfl rfl).2.1
  · exact (ownership_scoping_amended ⟨some "me", true, "Member"⟩ "me" rfl rfl (.vStr "item-1")
      [("age", .cmp [("$eq", .vNum 3)])] (by simp) [] {} collMemberAuthorRead
      { read := "MemberAuthor", write := "Member", modify := "MemberAuthor", delete := "MemberAuthor" }
      rfl rfl).2.2.1 rfl
  · exact (ownership_scoping_amended ⟨some "me", true, "Member"⟩ "me" rfl rfl (.vStr "item-1")
      [("_owner", .cmp [("$eq", .vStr "other")])] (by simp) [] {} collMemberAuthorRead
      { read := "MemberAuthor", write := "Member", modify := "MemberAuthor", delete := "MemberAuthor" }
      rfl rfl).2.2.2.1 _ rfl

/-- C2: the access evaluator at an `Admin` declaration under User mode.
A logged-in `Member` caller is `Denied` — and so is a logged-in `Admin`
caller: after the inner `role !== 'Admin'` guard, no branch returns
`Allowed` for the `Admin` permission, so control falls through to the
final `return 'Denied'`. The claim (and the repository's README, which
states only admins *have* access to Admin-gated collections) expects
`Allowed` for the `Admin` role. -/
theorem authUser_admin_gate_eval :
    authUser "User" ⟨some "user-1", true, "Member"⟩ (some "Admin") = "Denied"
    ∧ authUser "User" ⟨some "user-1", true, "Admin"⟩ (some "Admin") = "Denied" := ⟨rfl, rfl⟩

/-- C3: the insert path does not enforce `required` and does not apply
`default`: `insert` calls the schema validator without the `'Insert'`
operation argument (line 834), so inserting the empty item into a
collection whose schema declares `f` as `required: true` *succeeds* and
writes a document without `f` — identically with a `default` declared,
which is not populated. The validator itself, given `'Insert'`, rejects
the missing field (and applies the default), which is the behavior the
claim and the README describe. -/
theorem insert_required_default_skipped_eval :
    insert parseNone 0 "id1" "id2" cfgSystem [collRequired] true [] "Members" [] optsDefault
      = (.ok insertedDocC3, [insertedDocC3])
    ∧ insert parseNone 0 "id1" "id2" cfgSystem [collRequiredDefault] true [] "Members" [] optsDefault
      = (.ok insertedDocC3, [insertedDocC3])
    ∧ Item.hasKey insertedDocC3 "f" = false
    ∧ validateItemSchema [] (some schemaRequired) (some "Insert")
      = .error (.str (requiredMissingMsg "f"))
    ∧ validateItemSchema [] (some schemaRequiredDefault) (some "Insert")
      = .ok [("f", .vStr "fallback")] := by
  refine ⟨by rfl, by rfl, rfl, rfl, rfl⟩

/-- C4: the `$set` payload of `updateOne` is the original `item` argument
(as normalized in place), not the validated beforeUpdate-hook output:
with a hook replacing `name` by "fromHook", the stored document keeps
"orig", while the validated hook output (second conjunct) carries
"fromHook" — contradicting the claim (and the hook's documentation, which
says the returned object is updated in the collection instead of the
original item). -/
theorem update_set_ignores_hook_output_eval :
    update 5 cfgSystem [collUpdateHooked] true [[("_id", .vStr "x"), ("name", .vStr "old")]]
        "Members" [("_id", .vStr "x"), ("name", .vStr "orig")] optsDefault
      = (.ok "x",
         [[("_id", .vStr "x"), ("name", .vStr "orig"), ("_updatedDate", .vDate (some 5))]])
    ∧ eventBeforeUpdate 5 (some hookBeforeUpdateC4) [("_id", .vStr "x"), ("name", .vStr "orig")]
        ⟨"Members", none, "Visitor"⟩ optsDefault
      = .ok [("_id", .vStr "x"), ("name", .vStr "fromHook"), ("_updatedDate", .vDate (some 5))]
    ∧ (JSVal.vStr "orig") ≠ (JSVal.vStr "fromHook") := by
  refine ⟨by rfl, by rfl, by simp⟩

/-- C5 (counterexample): the filter handed to a query executor is not a
snapshot. After `eq('a', 1)` and handing the builder to the query, a
further `eq('a', 2)` on the same builder changes the filter the executor
reads at execution time from `a = 1` to `a = 2`. -/
theorem dataQuery_filter_snapshot_cex :
    DataFilter.eq [[]] 0 "a" (.vNum 1) none
      = .ok [[("a", FilterExpr.cmp [("$eq", .vNum 1)])]]
    ∧ DataFilter.eq [[("a", FilterExpr.cmp [("$eq", .vNum 1)])]] 0 "a" (.vNum 2) none
      = .ok [[("a", FilterExpr.cmp [("$eq", .vNum 2)])]]
    ∧ DataQuery.baseFilter [[("a", FilterExpr.cmp [("$eq", .vNum 2)])]] (DataQuery.filter {} 0)
      = [("a", FilterExpr.cmp [("$eq", .vNum 2)])]
    ∧ ([("a", FilterExpr.cmp [("$eq", .vNum 2)])] : FilterObj)
      ≠ [("a", FilterExpr.cmp [("$eq", .vNum 1)])] := by
  refine ⟨by rfl, by rfl, by rfl, ?_⟩
  simp

/-- C5 (amended): `DataQuery.filter` stores a live reference to the
builder's query object, not a copy: any later successful `eq` call on the
same builder is visible in the filter the executor reads — the executor's
base filter equals the handoff-time object updated with the new
predicate. -/
theorem dataQuery_filter_reference_semantics
    (heap : FilterHeap) (cfg : QueryConfig) (r : Nat) (hr : r < heap.length)
    (property : String) (hp : property.length ≠ 0) (value : JSVal) :
    DataFilter.eq heap r property value none
      = .ok (heapSet heap r (objSet (heapGet heap r) property (.cmp [("$eq", value)])))
    ∧ DataQuery.baseFilter
        (heapSet heap r (objSet (heapGet heap r) property (.cmp [("$eq", value)])))
        (DataQuery.filter cfg r)
      = objSet (heapGet heap r) property (.cmp [("$eq", value)]) := by
  constructor
  · unfold DataFilter.eq checkProperty
    simp only [hp, if_neg, Bind.bind, Except.bind]
    cases value <;> simp [Pure.pure, Except.pure]
  · unfold DataQuery.baseFilter DataQuery.filter heapSet heapGet
    simp only []
    rw [List.getD_eq_getElem?_getD, List.getElem?_set_eq_of_lt _ hr]
    rfl

/-- C5 (witness): the amended theorem at a concrete one-builder heap. -/
theorem dataQuery_filter_reference_semantics_witness :
    DataFilter.eq [[]] 0 "a" (.vNum 1) none
      = .ok (heapSet [[]] 0 (objSet (heapGet [[]] 0) "a" (.cmp [("$eq", .vNum 1)])))
    ∧ DataQuery.baseFilter
        (heapSet [[]] 0 (objSet (heapGet [[]] 0) "a" (.cmp [("$eq", .vNum 1)])))
        (DataQuery.filter {} 0)
      = objSet (heapGet [[]] 0) "a" (.cmp [("$eq", .vNum 1)]) :=
  dataQuery_filter_reference_semantics [[]] {} 0 (by decide) "a" (by decide) (.vNum 1)

/-- C6: when the collection's `onFailure` hook is present, hooks are not
suppressed, and the hook itself throws, the throw is caught and only
logged, and the failure reporter still throws the structured record
`\x7b type: op_error, context, error \x7d` carrying the original error;
for every hook and options, the thrown record is that same structured
record (the reporter always rethrows and never masks the root cause). -/
theorem onFailure_preserves_original_error
    (hook : FailureHook) (options : Option NasriyaDataOptions) (op : String)
    (context : HookContext) (error secondary : JSError)
    (hsup : (options.bind (fun o => o.suppressHooks)) ≠ some true)
    (hthrow : hook error context = .error secondary) :
    onFailure (some hook) options op context error
      = (.failureRecord (op ++ "_error") context error, [onFailureWarnMsg context.collectionName])
    ∧ ∀ (hook2 : Option FailureHook) (options2 : Option NasriyaDataOptions),
        (onFailure hook2 options2 op context error).1
          = .failureRecord (op ++ "_error") context error := by
  constructor
  · simp [onFailure, hsup, hthrow]
  · intro hook2 options2
    rfl

/-- C6 (witness): a throwing `onFailure` hook at concrete inputs — the
reporter throws the record carrying the root cause and logs one warning. -/
theorem onFailure_preserves_original_error_witness :
    onFailure (some (fun _ _ => Except.error (.str "secondary boom"))) none "insert"
        ⟨"Members", some "me", "Member"⟩ (.str "root cause")
      = (.failureRecord "insert_error" ⟨"Members", some "me", "Member"⟩ (.str "root cause"),
         [onFailureWarnMsg "Members"]) :=
  (onFailure_preserves_original_error (fun _ _ => Except.error (.str "secondary boom")) none
    "insert" ⟨"Members", some "me", "Member"⟩ (.str "root cause") (.str "secondary boom")
    (by decide) rfl).1

/-- C7: a User-mode client with role `Member` calling `insert` on a
collection declaring `write: 'Admin'` (auth not suppressed) fails with
the access-denied error produced by `prepareEvent` — a plain error, not a
failure-reporter record, showing it is raised after permission resolution
and before the try-block — and the collection contents are returned
unchanged: no document was written. -/
theorem insert_denied_write_no_mutation
    (parse : String → Option Int) (now : Int) (genId genId2 : String)
    (user : ClientUser) (collections : List CollectionDefinition)
    (storage : List Item) (collectionName : String) (item : Item)
    (options : NasriyaDataOptions) (collection : CollectionDefinition)
    (ps : CollectionPermissions)
    (hfind : collections.find? (fun c => c.name == collectionName) = some collection)
    (hps : collection.permissions = some ps) (hw : ps.write = "Admin")
    (hrole : user.role = "Member")
    (hauth : options.suppressAuth ≠ some true) :
    insert parse now genId genId2 ⟨"User", user⟩ collections true storage collectionName item options
      = (.error (.str (accessDeniedMsg user.id "write" collection.name)), storage) := by
  have hperm : accessPermission collection.permissions "write" = "Admin" := by
    rw [hps]
    simp [accessPermission, hw]
  have hden : authUser "User" user (some "Admin") = "Denied" := by
    unfold authUser
    cases hl : user.loggedIn <;> simp [hrole, hl]
  have hprep : prepareEvent ⟨"User", user⟩ collections collectionName "write" options
      = .error (.str (accessDeniedMsg user.id "write" collection.name)) := by
    unfold prepareEvent
    rw [hfind]
    simp [hperm, hauth, hden]
  unfold insert
  rw [hprep]
  simp

/-- C7 (witness): the theorem at a concrete logged-in Member client and
an Admin-write collection with empty storage. -/
theorem insert_denied_write_no_mutation_witness :
    insert parseNone 0 "g1" "g2" ⟨"User", ⟨some "m1", true, "Member"⟩⟩ [collAdminOnly]
        true [] "Secrets" [("name", .vStr "x")] optsDefault
      = (.error (.str (accessDeniedMsg (some "m1") "write" "Secrets")), []) :=
  insert_denied_write_no_mutation parseNone 0 "g1" "g2" ⟨some "m1", true, "Member"⟩ [collAdminOnly]
    [] "Secrets" [("name", .vStr "x")] optsDefault collAdminOnly
    { read := "Admin", write := "Admin", modify := "Admin", delete := "Admin" }
    rfl rfl rfl rfl (by decide)

/-- C8 (witness): the ordering theorem at a concrete item whose
`_updatedDate` (timestamp 50, a Date) is earlier than its `_createdDate`
(the parseable string "d100", timestamp 100): the normalizer fails. -/
theorem validateInsertItem_date_ordering_witness :
    (validateInsertItem parseC8W 0 "User" (some "me") "gid" itemC8W).isOk = false :=
  (validateInsertItem_date_ordering parseC8W 0 "User" (some "me") "gid" itemC8W).1
    (.vStr "d100") (.vDate (some 50)) 100 50 rfl (Or.inr ⟨"d100", rfl, by decide⟩)
    rfl (Or.inl rfl) (by decide)

/-- C9: after a successful `deleteOne`, the hook invoked at the "After"
stage is `collection.hooks.beforeRemove` (line 930), not `afterRemove`:
with a beforeRemove hook appending "-b" and an afterRemove hook appending
"-a", `remove` returns "x-b-b" — the beforeRemove hook ran twice — where
the claim (and the comment in the source) expects the afterRemove hook's
"x-b-a" (second conjunct). -/
theorem remove_after_event_runs_beforeRemove_hook_eval :
    remove cfgSystem [collRemoveHooked] true [[("_id", .vStr "x-b")]] "Members" "x" optsDefault
      = (.ok "x-b-b", [])
    ∧ runIdEvent (some hookAfterRemoveC9) "x-b" ⟨"Members", none, "Visitor"⟩ optsDefault
      = .ok "x-b-a"
    ∧ ("x-b-b" : String) ≠ "x-b-a" := by
  refine ⟨by rfl, by rfl, by decide⟩

/-- C10: the schema validator's required rule fires on the mere presence
of the `required` key: a field declared `required: false` with no default
makes inserting an item missing that field fail with the
missing-required-property error, with exactly the same outcome as
`required: true`. -/
theorem required_key_presence_triggers_rule
    (p t : String) (item : Item)
    (ht : isSchemaType t = true) (hnp : item.hasKey p = false) :
    validateItemSchema item (some [(p, .custom { type := t, required := some false })]) (some "Insert")
        = .error (.str (requiredMissingMsg p))
    ∧ validateItemSchema item (some [(p, .custom { type := t, required := some true })]) (some "Insert")
        = validateItemSchema item (some [(p, .custom { type := t, required := some false })]) (some "Insert") := by
  have h1 : validateItemSchema item (some [(p, .custom { type := t, required := some false })]) (some "Insert")
      = .error (.str (requiredMissingMsg p)) := by
    simp [validateItemSchema, validateSchemaProp, List.foldlM, ht, hnp]
  have h2 : validateItemSchema item (some [(p, .custom { type := t, required := some true })]) (some "Insert")
      = .error (.str (requiredMissingMsg p)) := by
    simp [validateItemSchema, validateSchemaProp, List.foldlM, ht, hnp]
  exact ⟨h1, h2.trans h1.symm⟩

/-- C10 (witness): a `required: false` Number field at a concrete item
missing the field. -/
theorem required_key_presence_triggers_rule_witness :
    validateItemSchema [("name", .vStr "A")]
        (some [("age", .custom { type := "Number", required := some false })]) (some "Insert")
      = .error (.str (requiredMissingMsg "age")) :=
  (required_key_presence_triggers_rule "age" "Number" [("name", .vStr "A")]
    (by decide) (by decide)).1

end NasriyaMongo
